import Mathlib

/-!
Verification of the task-orchestration subsystem of the video-service
repository: provider parameter validation/normalization (aliyun, zhipuai),
the job store transition operations, the worker terminal writes, the
dispatch poll loop, artifact download, and listing pagination.

Python dictionaries with string keys are embedded as association lists
(`StrMap`); heterogeneous Python values as the inductive `Value`; functions
that may raise return `Except String`.
-/

/-- Heterogeneous Python value: string, integer, boolean, list, or None. -/
inductive Value where
  | str (s : String)
  | int (n : Int)
  | bool (b : Bool)
  | list (xs : List Value)
  | null
  deriving Repr

mutual

/-- Decidable equality of embedded Python values. -/
def Value.decEq : (a b : Value) → Decidable (a = b)
  | Value.str a, Value.str b =>
      match String.decEq a b with
      | isTrue h => isTrue (by rw [h])
      | isFalse h => isFalse (fun hh => h (by injection hh))
  | Value.int a, Value.int b =>
      match Int.decEq a b with
      | isTrue h => isTrue (by rw [h])
      | isFalse h => isFalse (fun hh => h (by injection hh))
  | Value.bool a, Value.bool b =>
      match Bool.decEq a b with
      | isTrue h => isTrue (by rw [h])
      | isFalse h => isFalse (fun hh => h (by injection hh))
  | Value.null, Value.null => isTrue rfl
  | Value.list xs, Value.list ys =>
      match Value.listDecEq xs ys with
      | isTrue h => isTrue (by rw [h])
      | isFalse h => isFalse (fun hh => h (by injection hh))
  | Value.str _, Value.int _ => isFalse (fun h => Value.noConfusion h)
  | Value.str _, Value.bool _ => isFalse (fun h => Value.noConfusion h)
  | Value.str _, Value.list _ => isFalse (fun h => Value.noConfusion h)
  | Value.str _, Value.null => isFalse (fun h => Value.noConfusion h)
  | Value.int _, Value.str _ => isFalse (fun h => Value.noConfusion h)
  | Value.int _, Value.bool _ => isFalse (fun h => Value.noConfusion h)
  | Value.int _, Value.list _ => isFalse (fun h => Value.noConfusion h)
  | Value.int _, Value.null => isFalse (fun h => Value.noConfusion h)
  | Value.bool _, Value.str _ => isFalse (fun h => Value.noConfusion h)
  | Value.bool _, Value.int _ => isFalse (fun h => Value.noConfusion h)
  | Value.bool _, Value.list _ => isFalse (fun h => Value.noConfusion h)
  | Value.bool _, Value.null => isFalse (fun h => Value.noConfusion h)
  | Value.list _, Value.str _ => isFalse (fun h => Value.noConfusion h)
  | Value.list _, Value.int _ => isFalse (fun h => Value.noConfusion h)
  | Value.list _, Value.bool _ => isFalse (fun h => Value.noConfusion h)
  | Value.list _, Value.null => isFalse (fun h => Value.noConfusion h)
  | Value.null, Value.str _ => isFalse (fun h => Value.noConfusion h)
  | Value.null, Value.int _ => isFalse (fun h => Value.noConfusion h)
  | Value.null, Value.bool _ => isFalse (fun h => Value.noConfusion h)
  | Value.null, Value.list _ => isFalse (fun h => Value.noConfusion h)

/-- Decidable equality of lists of embedded Python values. -/
def Value.listDecEq : (xs ys : List Value) → Decidable (xs = ys)
  | [], [] => isTrue rfl
  | [], _ :: _ => isFalse (fun h => List.noConfusion h)
  | _ :: _, [] => isFalse (fun h => List.noConfusion h)
  | x :: xs, y :: ys =>
      match Value.decEq x y, Value.listDecEq xs ys with
      | isTrue h1, isTrue h2 => isTrue (by rw [h1, h2])
      | isFalse h1, _ => isFalse (fun hh => h1 (by injection hh))
      | _, isFalse h2 => isFalse (fun hh => h2 (by injection hh))

end

instance : DecidableEq Value := Value.decEq

instance (ε α : Type) [DecidableEq ε] [DecidableEq α] : DecidableEq (Except ε α)
  | Except.ok a, Except.ok b =>
      if h : a = b then isTrue (by rw [h]) else isFalse (fun hh => h (by injection hh))
  | Except.error a, Except.error b =>
      if h : a = b then isTrue (by rw [h]) else isFalse (fun hh => h (by injection hh))
  | Except.ok _, Except.error _ => isFalse (fun h => Except.noConfusion h)
  | Except.error _, Except.ok _ => isFalse (fun h => Except.noConfusion h)

/-- A Python dict with string keys, embedded as an association list. -/
abbrev StrMap : Type := List (String × Value)

/-- Lookup of a key (`d[k]` / `d.get(k)`). -/
def StrMap.find? : StrMap → String → Option Value
  | [], _ => Option.none
  | (k, v) :: rest, key => if k = key then some v else StrMap.find? rest key

/-- Membership test (`k in d`). -/
def StrMap.contains (m : StrMap) (k : String) : Bool := (m.find? k).isSome

/-- Lookup with Python None as the default (`d.get(k)`). -/
def StrMap.getV (m : StrMap) (k : String) : Value := (m.find? k).getD Value.null

/-- Assignment (`d[k] = v`): replaces the binding in place or appends it. -/
def StrMap.insert : StrMap → String → Value → StrMap
  | [], key, v => [(key, v)]
  | (k, w) :: rest, key, v =>
      if k = key then (k, v) :: rest else (k, w) :: StrMap.insert rest key v

/-- Deletion (`del d[k]`). -/
def StrMap.erase : StrMap → String → StrMap
  | [], _ => []
  | (k, v) :: rest, key =>
      if k = key then StrMap.erase rest key else (k, v) :: StrMap.erase rest key

/-- An apostrophe, as used in the quoted error messages of both adapters. -/
def apos : String := String.singleton (Char.ofNat 39)

/-- Single-quoted string, as produced by the Python f-strings. -/
def quoted (s : String) : String := apos ++ s ++ apos

/-- Unsupported-model message shared by both adapters:
`f"Model (m) not supported. Supported models: (supported)"`. -/
def unsupportedModelMsg (model : String) (supported : List String) : String :=
  "Model " ++ quoted model ++ " not supported. Supported models: " ++
    String.intercalate ", " supported

/-- Whether `pat` occurs as a contiguous sublist (Python `pat in s`). -/
def charsContain (pat : List Char) : List Char → Bool
  | [] => pat.isEmpty
  | c :: rest => pat.isPrefixOf (c :: rest) || charsContain pat rest

/-- Python substring test `pat in s`. -/
def strContainsSub (s pat : String) : Bool := charsContain pat.data s.data

/-- Python `s.lower()` over the character list. -/
def pyLower (s : String) : String := String.mk (s.data.map Char.toLower)

/-- Python `s.startswith(p)`. -/
def pyStartsWith (s p : String) : Bool := p.data.isPrefixOf s.data

/-- Python `s.endswith(p)`. -/
def pyEndsWith (s p : String) : Bool := p.data.reverse.isPrefixOf s.data.reverse

/-- Digit-string accumulator for `pyStrToInt`. -/
def digitsToNat : List Char → Nat → Option Nat
  | [], acc => some acc
  | c :: rest, acc =>
      if c.isDigit then digitsToNat rest (acc * 10 + (c.toNat - 48)) else Option.none

/-- Python `int(s)` on a decimal string literal with an optional sign. -/
def pyStrToInt (s : String) : Option Int :=
  match s.data with
  | [] => Option.none
  | c :: rest =>
      if c = Char.ofNat 45 then
        match rest with
        | [] => Option.none
        | _ => (digitsToNat rest 0).map (fun n => -(n : Int))
      else if c = Char.ofNat 43 then
        match rest with
        | [] => Option.none
        | _ => (digitsToNat rest 0).map (fun n => (n : Int))
      else (digitsToNat (c :: rest) 0).map (fun n => (n : Int))

/-- Python `int(v)` on the embedded values; raises on None and lists. -/
def pyToInt : Value → Except String Int
  | Value.int n => Except.ok n
  | Value.bool b => Except.ok (if b then 1 else 0)
  | Value.str s =>
      match pyStrToInt s with
      | some n => Except.ok n
      | Option.none => Except.error ("invalid literal for int() with base 10: " ++ quoted s)
  | Value.null => Except.error "int() argument must be a string or a number, not NoneType"
  | Value.list _ => Except.error "int() argument must be a string or a number, not list"

/-! ## Aliyun provider (`AliyunProvider`) -/

/-- Supported models of the aliyun provider (`AliyunProvider.supported_models`);
the hard-coded fallback list, identical to the configured default
(`ALIYUN_SUPPORTED_MODELS`). -/
def aliyunSupportedModels : List String :=
  ["wanx2.1-t2v-turbo", "wanx2.1-t2v-plus", "wanx2.1-i2v-turbo",
   "wanx2.1-i2v-plus", "wanx2.1-kf2v-plus"]

/-- Model-kind classification (`AliyunProvider._determine_model_type`):
substring match on the lowered model name, defaulting to text-to-video. -/
def determineModelType (model : String) : String :=
  let m := pyLower model
  if strContainsSub m "t2v" then "text_to_video"
  else if strContainsSub m "i2v" then "image_to_video"
  else if strContainsSub m "kf2v" || strContainsSub m "keyframe" then "keyframe_to_video"
  else "text_to_video"

/-- Supported-model check of `AliyunProvider.validate_parameters`. -/
def aliyunCheckModel (model : String) : Except String Unit :=
  if !(aliyunSupportedModels.contains model) then
    Except.error (unsupportedModelMsg model aliyunSupportedModels)
  else Except.ok ()

/-- Required-field stage of `AliyunProvider.validate_parameters`: prompt is
required except for keyframe-to-video; image-to-video requires an image URL,
rewriting the legacy `source_image` to `img_url` when `img_url` is absent;
keyframe-to-video requires first and last frame URLs. -/
def aliyunRequired (modelType : String) (validated : StrMap) : Except String StrMap :=
  if validated.contains "prompt" = false ∧ modelType ≠ "keyframe_to_video" then
    Except.error "Missing required parameter: prompt"
  else if modelType = "image_to_video" then
    if validated.contains "img_url" = false ∧ validated.contains "source_image" = false then
      Except.error "Image-to-video model requires img_url parameter"
    else if validated.contains "source_image" = true ∧ validated.contains "img_url" = false then
      Except.ok ((validated.insert "img_url" (validated.getV "source_image")).erase "source_image")
    else Except.ok validated
  else if modelType = "keyframe_to_video" then
    if validated.contains "first_frame_url" = false then
      Except.error "Keyframe-to-video model requires first_frame_url parameter"
    else if validated.contains "last_frame_url" = false then
      Except.error "Keyframe-to-video model requires last_frame_url parameter"
    else Except.ok validated
  else Except.ok validated

/-- Duration stage of `AliyunProvider.validate_parameters`: default 5 when
absent; clamped via `min(max(int(d), 3), 5)` for text/image-to-video; fixed
at 5 for the keyframe kind. -/
def aliyunDuration (modelType : String) (validated : StrMap) : Except String StrMap :=
  if validated.contains "duration" = false then
    Except.ok (validated.insert "duration" (Value.int 5))
  else if modelType = "text_to_video" ∨ modelType = "image_to_video" then
    match pyToInt (validated.getV "duration") with
    | Except.ok n => Except.ok (validated.insert "duration" (Value.int (min (max n 3) 5)))
    | Except.error e => Except.error e
  else
    Except.ok (validated.insert "duration" (Value.int 5))

/-- Legacy `size` to resolution-tier lookup table of
`AliyunProvider.validate_parameters`. -/
def aliyunSizeToResolution (size : Value) : String :=
  if size = Value.str "1280*720" then "720P"
  else if size = Value.str "720*1280" then "720P"
  else if size = Value.str "960*960" then "720P"
  else if size = Value.str "832*1088" then "720P"
  else if size = Value.str "1088*832" then "720P"
  else if size = Value.str "832*480" then "480P"
  else if size = Value.str "480*832" then "480P"
  else if size = Value.str "624*624" then "480P"
  else "720P"

/-- Resolution stage of `AliyunProvider.validate_parameters`: when
`resolution` is absent, translate a present legacy `size` (deleting it) or
fill the model-kind default. -/
def aliyunResolution (model modelType : String) (validated : StrMap) : StrMap :=
  if validated.contains "resolution" = false then
    if validated.contains "size" = true then
      ((validated.insert "resolution"
          (Value.str (aliyunSizeToResolution (validated.getV "size")))).erase "size")
    else
      if modelType = "text_to_video" then
        if pyEndsWith model "turbo" then validated.insert "resolution" (Value.str "720P")
        else validated.insert "resolution" (Value.str "720P")
      else if modelType = "image_to_video" then
        if pyEndsWith model "turbo" then validated.insert "resolution" (Value.str "720P")
        else validated.insert "resolution" (Value.str "720P")
      else validated.insert "resolution" (Value.str "720P")
  else validated

/-- Defaults stage of `AliyunProvider.validate_parameters`:
`prompt_extend` defaults to True and `seed` to -1. -/
def aliyunDefaults (validated : StrMap) : StrMap :=
  let validated :=
    if validated.contains "prompt_extend" = false then
      validated.insert "prompt_extend" (Value.bool true)
    else validated
  if validated.contains "seed" = false then validated.insert "seed" (Value.int (-1))
  else validated

/-- `AliyunProvider.validate_parameters`: copies the input, checks the model,
records the model kind, then applies the required-field, duration,
resolution, and defaults stages in order. -/
def aliyunValidate (model : String) (parameters : StrMap) : Except String StrMap :=
  let validated := parameters
  match aliyunCheckModel model with
  | Except.error e => Except.error e
  | Except.ok _ =>
    let modelType := determineModelType model
    let validated := validated.insert "model_type" (Value.str modelType)
    match aliyunRequired modelType validated with
    | Except.error e => Except.error e
    | Except.ok validated =>
      match aliyunDuration modelType validated with
      | Except.error e => Except.error e
      | Except.ok validated =>
        let validated := aliyunResolution model modelType validated
        Except.ok (aliyunDefaults validated)

/-! ## ZhipuAI provider (`ZhipuAIProvider`) -/

/-- Supported models of the zhipuai provider
(`ZhipuAIProvider.supported_models`); the hard-coded fallback list, identical
to the configured default (`ZHIPUAI_SUPPORTED_MODELS`). -/
def zhipuSupportedModels : List String :=
  ["cogvideox-2", "cogvideox-flash", "viduq1-text", "viduq1-image",
   "viduq1-start-end", "vidu2-image", "vidu2-start-end", "vidu2-reference"]

/-- Image-to-video branch of `ZhipuAIProvider.validate_parameters`: an
image URL (or the legacy `source_image`, rewritten via `pop`) is required,
and a list-valued `image_url` must be non-empty. -/
def zhipuImageBranch (validated : StrMap) : Except String StrMap :=
  if validated.contains "image_url" = false ∧ validated.contains "source_image" = false then
    Except.error ("Parameter " ++ quoted "image_url" ++ " is required for image-to-video models")
  else
    let validated :=
      if validated.contains "source_image" = true ∧ validated.contains "image_url" = false then
        (validated.insert "image_url" (validated.getV "source_image")).erase "source_image"
      else validated
    match validated.getV "image_url" with
    | Value.list xs =>
        if xs.length = 0 then
          Except.error (quoted "image_url" ++ " must not be an empty list")
        else Except.ok validated
    | _ => Except.ok validated

/-- Start-end-frame branch of `ZhipuAIProvider.validate_parameters`:
`image_url` must be a list of exactly two images. -/
def zhipuStartEndBranch (validated : StrMap) : Except String StrMap :=
  match validated.find? "image_url" with
  | some (Value.list xs) =>
      if xs.length != 2 then
        Except.error ("Parameter " ++ quoted "image_url" ++
          " must be a list containing exactly 2 images for start-end frame models")
      else Except.ok validated
  | _ =>
      Except.error ("Parameter " ++ quoted "image_url" ++
        " must be a list containing exactly 2 images for start-end frame models")

/-- Reference-subject branch of `ZhipuAIProvider.validate_parameters`:
`image_url` must be a non-empty list of at most three images. -/
def zhipuReferenceBranch (validated : StrMap) : Except String StrMap :=
  match validated.find? "image_url" with
  | some (Value.list xs) =>
      if xs.length = 0 then
        Except.error ("Parameter " ++ quoted "image_url" ++
          " must be a non-empty list of images for reference model")
      else if xs.length > 3 then
        Except.error ("Parameter " ++ quoted "image_url" ++
          " can contain at most 3 images for reference model")
      else Except.ok validated
  | _ =>
      Except.error ("Parameter " ++ quoted "image_url" ++
        " must be a non-empty list of images for reference model")

/-- Model-kind-conditioned required-field checks of
`ZhipuAIProvider.validate_parameters`, including the
`source_image` to `image_url` rewrite for image-to-video models. -/
def zhipuRequired (model : String) (validated : StrMap) : Except String StrMap :=
  let is_cogvideox := pyStartsWith model "cogvideox"
  let is_vidu_text := model = "viduq1-text"
  let is_vidu_image := model = "viduq1-image" ∨ model = "vidu2-image"
  let is_vidu_start_end := model = "viduq1-start-end" ∨ model = "vidu2-start-end"
  let is_vidu_reference := model = "vidu2-reference"
  if is_cogvideox then
    if validated.contains "prompt" = false then
      Except.error ("Parameter " ++ quoted "prompt" ++ " is required for CogVideoX models")
    else Except.ok validated
  else if is_vidu_text then
    if validated.contains "prompt" = false then
      Except.error ("Parameter " ++ quoted "prompt" ++ " is required for text-to-video models")
    else Except.ok validated
  else if is_vidu_image then zhipuImageBranch validated
  else if is_vidu_start_end then zhipuStartEndBranch validated
  else if is_vidu_reference then zhipuReferenceBranch validated
  else Except.ok validated

/-- `ZhipuAIProvider.validate_parameters`: copies the input, checks the
model, then applies the model-kind-conditioned required-field checks. -/
def zhipuValidate (model : String) (parameters : StrMap) : Except String StrMap :=
  let validated := parameters
  if !(zhipuSupportedModels.contains model) then
    Except.error (unsupportedModelMsg model zhipuSupportedModels)
  else zhipuRequired model validated

/-! ## Job store (`TaskRepository`, `TaskModel`, worker store writes) -/

/-- A persisted job document: the `TaskModel.create_task` fields plus the
store-assigned identifier. -/
structure TaskDoc where
  id : String
  tenant_id : String
  user_id : String
  status : String
  created_at : String
  updated_at : String
  model : String
  provider : String
  parameters : StrMap
  is_async : Bool
  result : Option Value
  error : Option String
  deriving DecidableEq, Repr

/-- The task collection: a list of job documents. -/
abbrev Store : Type := List TaskDoc

/-- Mongo `find_one` on the id: the first document with the given id
(`TaskRepository.get_by_id`). -/
def findById : Store → String → Option TaskDoc
  | [], _ => Option.none
  | d :: rest, taskId => if d.id = taskId then some d else findById rest taskId

/-- Mongo `update_one` on an id filter with a `$set` patch: applies the
patch to the first matching document; the flag is `modified_count > 0`,
true when a matching document exists and the patch changes it. -/
def updateFirst (store : Store) (taskId : String) (patch : TaskDoc → TaskDoc) : Bool × Store :=
  match store with
  | [] => (false, [])
  | d :: rest =>
      if d.id = taskId then
        (if patch d = d then false else true, patch d :: rest)
      else
        let r := updateFirst rest taskId patch
        (r.1, d :: r.2)

/-- `TaskModel.create_task`: a fresh Pending document with no result and no
error. -/
def createTaskDoc (newId tenant_id user_id model provider : String)
    (parameters : StrMap) (is_async : Bool) (now : String) : TaskDoc :=
  { id := newId, tenant_id := tenant_id, user_id := user_id, status := "pending",
    created_at := now, updated_at := now, model := model, provider := provider,
    parameters := parameters, is_async := is_async,
    result := Option.none, error := Option.none }

/-- `TaskRepository.update_status`: fetch by id, then `$set` the status and
updated timestamp; False when the task does not exist. -/
def updateStatusRepo (store : Store) (taskId newStatus now : String) : Bool × Store :=
  match findById store taskId with
  | Option.none => (false, store)
  | some _ =>
      updateFirst store taskId (fun d => { d with status := newStatus, updated_at := now })

/-- `TaskRepository.cancel_task`: a missing task or a task whose status is
not pending/running yields False with no write; otherwise delegates to
`update_status` with the Cancelled status. -/
def cancelTaskRepo (store : Store) (taskId now : String) : Bool × Store :=
  match findById store taskId with
  | Option.none => (false, store)
  | some task =>
      if ¬(task.status = "pending" ∨ task.status = "running") then (false, store)
      else updateStatusRepo store taskId "cancelled" now

/-- Worker `update_task_status`: unconditional `$set` of the status and
timestamp, keyed only on the id. -/
def updateTaskStatusW (store : Store) (taskId newStatus now : String) : Bool × Store :=
  updateFirst store taskId (fun d => { d with status := newStatus, updated_at := now })

/-- Worker `update_task_result`: unconditional `$set` of the Completed
status, the result payload, and the timestamp, keyed only on the id. -/
def updateTaskResultW (store : Store) (taskId : String) (res : Value) (now : String) :
    Bool × Store :=
  updateFirst store taskId
    (fun d => { d with status := "completed", result := some res, updated_at := now })

/-- Worker `update_task_error`: unconditional `$set` of the Failed status,
the error string, and the timestamp, keyed only on the id. -/
def updateTaskErrorW (store : Store) (taskId errorMsg now : String) : Bool × Store :=
  updateFirst store taskId
    (fun d => { d with status := "failed", error := some errorMsg, updated_at := now })

/-- Provider registry lookup (`get_provider` over the two providers
registered at import time), yielding the validation function. -/
def registryValidate (provider : String) :
    Option (String → StrMap → Except String StrMap) :=
  if provider = "aliyun" then some aliyunValidate
  else if provider = "zhipuai" then some zhipuValidate
  else Option.none

/-- Supported-model list of a registered provider. -/
def registrySupportedModels (provider : String) : Option (List String) :=
  if provider = "aliyun" then some aliyunSupportedModels
  else if provider = "zhipuai" then some zhipuSupportedModels
  else Option.none

/-- `TaskService.create_task`: resolve the provider, validate the
parameters (failures propagate to the caller before any persistence), then
insert a fresh Pending document carrying the validated parameters; the
store is returned unchanged on every failure path. `now` and `newId` stand
for the wall clock and the store-assigned id. -/
def createTask (store : Store) (tenant_id user_id model provider : String)
    (parameters : StrMap) (is_async : Bool) (now newId : String) :
    Except String String × Store :=
  match registryValidate provider with
  | Option.none => (Except.error ("Provider " ++ quoted provider ++ " not found"), store)
  | some validateFn =>
      match validateFn model parameters with
      | Except.error e => (Except.error e, store)
      | Except.ok validatedParameters =>
          (Except.ok newId,
            store ++ [createTaskDoc newId tenant_id user_id model provider
              validatedParameters is_async now])

/-! ## Dispatch poll loop (`AliyunProvider.call_model`) -/

/-- A raised Python exception: its class and its message. -/
structure PyErr where
  excClass : String
  msg : String
  deriving DecidableEq, Repr

/-- The `output` object of one aliyun task-status poll response. -/
structure PollOutput where
  task_status : String
  message : Option String
  code : Option String
  deriving DecidableEq, Repr

/-- Terminal-success vocabulary of the aliyun poll loop. -/
def aliyunSuccessStatuses : List String := ["SUCCEEDED", "COMPLETE", "SUCCESS"]

/-- Terminal-failure vocabulary of the aliyun poll loop. -/
def aliyunFailStatuses : List String := ["FAILED", "CANCELLED", "ERROR"]

/-- Poll ceiling (`max_retries = 180`). -/
def aliyunMaxRetries : Nat := 180

/-- Poll interval in seconds (`retry_interval = 15`). -/
def aliyunRetryInterval : Nat := 15

/-- Message of the poll-ceiling error
(`f"Task (task_id) did not complete within expected time"`). -/
def aliyunTimeoutMsg (taskId : String) : String :=
  "Task " ++ taskId ++ " did not complete within expected time"

/-- Message of the remote-failure error
(`f"Task failed: (error_code) - (error_msg)"`, with the defaults of the
`output.get` calls). -/
def aliyunTaskFailedMsg (output : PollOutput) : String :=
  "Task failed: " ++ output.code.getD "Unknown error code" ++ " - " ++
    output.message.getD "Unknown error"

/-- The polling loop of `AliyunProvider.call_model`: at most `remaining`
further polls, the i-th remote response given by `responses`; a status in
the success vocabulary returns the response, one in the failure vocabulary
raises, anything else polls again; an exhausted ceiling raises the
poll-ceiling error. -/
def aliyunPollFrom (taskId : String) (responses : Nat → PollOutput) (i remaining : Nat) :
    Except PyErr PollOutput :=
  match remaining with
  | 0 => Except.error { excClass := "ValueError", msg := aliyunTimeoutMsg taskId }
  | Nat.succ r =>
      let output := responses i
      if aliyunSuccessStatuses.contains output.task_status then Except.ok output
      else if aliyunFailStatuses.contains output.task_status then
        Except.error { excClass := "ValueError", msg := aliyunTaskFailedMsg output }
      else aliyunPollFrom taskId responses (i + 1) r

/-- The poll phase of `AliyunProvider.call_model`, from the first poll. -/
def aliyunPoll (taskId : String) (responses : Nat → PollOutput) : Except PyErr PollOutput :=
  aliyunPollFrom taskId responses 0 aliyunMaxRetries

/-- The catch-all wrapper closing `AliyunProvider.call_model`
(`except Exception as e: raise ValueError(f"Aliyun API error: (e)")`). -/
def aliyunWrapErr (r : Except PyErr PollOutput) : Except PyErr PollOutput :=
  match r with
  | Except.ok v => Except.ok v
  | Except.error e =>
      Except.error { excClass := "ValueError", msg := "Aliyun API error: " ++ e.msg }

/-- Exception class of a failed call, if the call failed. -/
def errClassOf (r : Except PyErr PollOutput) : Option String :=
  match r with
  | Except.error e => some e.excClass
  | Except.ok _ => Option.none

/-! ## Artifact download
(`download_video`, `_format_response_and_download_video`) -/

/-- `AliyunProvider.download_video`, with the network and filesystem
effects of its try block abstracted as an outcome oracle: the local save
path on success, the empty string on any failure (the except branch —
nothing propagates past this boundary). -/
def downloadVideo (fetchOutcome : Except String Unit) (savePath : String) : String :=
  match fetchOutcome with
  | Except.ok _ => savePath
  | Except.error _ => ""

/-- One produced-media descriptor of the canonical result. -/
structure VideoData where
  index : Nat
  url : String
  local_path : String
  duration : Value
  deriving DecidableEq, Repr

/-- The canonical result assembled by
`AliyunProvider._format_response_and_download_video` (the pass-through
`usage` field is omitted). -/
structure FormattedResponse where
  id : String
  model : Value
  created : String
  videos : List VideoData
  prompt : Option Value
  actual_prompt : Option Value
  model_type : Value
  resolution : Option Value
  deriving DecidableEq, Repr

/-- `AliyunProvider._format_response_and_download_video`, with the download
outcome abstracted: raises when the response carries no video URL;
otherwise downloads (yielding an empty `local_path` on a failed download)
and assembles the canonical result from the response and the original
parameters. `requestId`, `nowStr`, and `localPath` stand for the generated
request id, timestamp, and target path. -/
def formatResponse (videoUrl : String) (actualPrompt : Option Value)
    (fetchOutcome : Except String Unit) (originalParams : StrMap)
    (requestId nowStr localPath : String) : Except String FormattedResponse :=
  if videoUrl = "" then Except.error "Failed to find video URL in response"
  else
    let savedPath := downloadVideo fetchOutcome localPath
    let videoData : VideoData :=
      { index := 0, url := videoUrl, local_path := savedPath,
        duration := (originalParams.find? "duration").getD (Value.int 5) }
    Except.ok
      { id := requestId,
        model := (originalParams.find? "model").getD (Value.str ""),
        created := nowStr,
        videos := [videoData],
        prompt := originalParams.find? "prompt",
        actual_prompt := actualPrompt,
        model_type := (originalParams.find? "model_type").getD (Value.str ""),
        resolution := originalParams.find? "resolution" }

/-! ## Listing pagination
(`TaskService.get_user_tasks` / `get_task_list`, `api.tasks.list_tasks`) -/

/-- Offset and limit computed by `TaskService.get_user_tasks` and
`get_task_list`: `skip = (page - 1) * page_size`, `limit = page_size`
(`TaskQuery` constrains `page ≥ 1` and `1 ≤ page_size ≤ 100`). -/
def paginationSkipLimit (page pageSize : Nat) : Nat × Nat :=
  ((page - 1) * pageSize, pageSize)

/-- `total_pages` computed by `api.tasks.list_tasks`:
`(total + page_size - 1) // page_size if total > 0 else 1`. -/
def computeTotalPages (total pageSize : Nat) : Nat :=
  if total > 0 then (total + pageSize - 1) / pageSize else 1

/-! ## Heap-level view of validate_parameters (frame property) -/

/-- A heap of Python dict objects; addresses are list indices. -/
abbrev Heap : Type := List StrMap

/-- Dereference an address (a dangling address reads as an empty dict). -/
def heapGet (h : Heap) (a : Nat) : StrMap := h.getD a []

/-- Overwrite the dict at an address. -/
def heapSet (h : Heap) (a : Nat) (m : StrMap) : Heap := h.set a m

/-- `AliyunProvider.validate_parameters` as a heap transformer: `paramsAddr`
is the caller-owned dict; `validated = parameters.copy()` allocates a fresh
dict at the end of the heap, and every subsequent statement mutates only
the fresh dict. Errors carry the heap at raise time. -/
def aliyunValidateHeap (model : String) (h : Heap) (paramsAddr : Nat) :
    Except (String × Heap) (Heap × Nat) :=
  let va := h.length
  let h := h ++ [heapGet h paramsAddr]
  match aliyunCheckModel model with
  | Except.error e => Except.error (e, h)
  | Except.ok _ =>
    let modelType := determineModelType model
    let h := heapSet h va ((heapGet h va).insert "model_type" (Value.str modelType))
    match aliyunRequired modelType (heapGet h va) with
    | Except.error e => Except.error (e, h)
    | Except.ok v1 =>
      let h := heapSet h va v1
      match aliyunDuration modelType (heapGet h va) with
      | Except.error e => Except.error (e, h)
      | Except.ok v2 =>
        let h := heapSet h va v2
        let h := heapSet h va (aliyunResolution model modelType (heapGet h va))
        let h := heapSet h va (aliyunDefaults (heapGet h va))
        Except.ok (h, va)

/-- `ZhipuAIProvider.validate_parameters` as a heap transformer, with the
same allocation discipline. -/
def zhipuValidateHeap (model : String) (h : Heap) (paramsAddr : Nat) :
    Except (String × Heap) (Heap × Nat) :=
  let va := h.length
  let h := h ++ [heapGet h paramsAddr]
  if !(zhipuSupportedModels.contains model) then
    Except.error (unsupportedModelMsg model zhipuSupportedModels, h)
  else
    match zhipuRequired model (heapGet h va) with
    | Except.error e => Except.error (e, h)
    | Except.ok v1 => Except.ok (heapSet h va v1, va)

/-- Final heap of an imperative validate run, for both outcomes. -/
def runHeap (r : Except (String × Heap) (Heap × Nat)) : Heap :=
  match r with
  | Except.ok (h, _) => h
  | Except.error (_, h) => h

/-! ## Association-list lemmas -/

theorem StrMap.find?_insert_self (m : StrMap) (k : String) (v : Value) :
    (m.insert k v).find? k = some v := by
  induction m with
  | nil => simp [StrMap.insert, StrMap.find?]
  | cons head rest ih =>
      obtain ⟨a, b⟩ := head
      by_cases hak : a = k
      · subst hak; simp [StrMap.insert, StrMap.find?]
      · simp [StrMap.insert, StrMap.find?, hak, ih]

theorem StrMap.find?_insert_of_ne (m : StrMap) (k key : String) (v : Value) (h : key ≠ k) :
    (m.insert k v).find? key = m.find? key := by
  induction m with
  | nil => simp [StrMap.insert, StrMap.find?, Ne.symm h]
  | cons head rest ih =>
      obtain ⟨a, b⟩ := head
      by_cases hak : a = k
      · subst hak
        simp [StrMap.insert, StrMap.find?, Ne.symm h]
      · simp [StrMap.insert, StrMap.find?, hak, ih]

theorem StrMap.find?_erase_self (m : StrMap) (k : String) :
    (m.erase k).find? k = Option.none := by
  induction m with
  | nil => simp [StrMap.erase, StrMap.find?]
  | cons head rest ih =>
      obtain ⟨a, b⟩ := head
      by_cases hak : a = k
      · simp [StrMap.erase, hak, ih]
      · simp [StrMap.erase, StrMap.find?, hak, ih]

theorem StrMap.find?_erase_of_ne (m : StrMap) (k key : String) (h : key ≠ k) :
    (m.erase k).find? key = m.find? key := by
  induction m with
  | nil => simp [StrMap.erase]
  | cons head rest ih =>
      obtain ⟨a, b⟩ := head
      by_cases hak : a = k
      · subst hak
        simp [StrMap.erase, StrMap.find?, ih, Ne.symm h]
      · simp [StrMap.erase, StrMap.find?, hak, ih]

theorem StrMap.insert_of_find? (m : StrMap) (k : String) (v : Value)
    (h : m.find? k = some v) : m.insert k v = m := by
  induction m with
  | nil => simp [StrMap.find?] at h
  | cons head rest ih =>
      obtain ⟨a, b⟩ := head
      by_cases hak : a = k
      · subst hak
        simp [StrMap.find?] at h
        simp [StrMap.insert, h]
      · simp [StrMap.find?, hak] at h
        simp [StrMap.insert, hak, ih h]

theorem StrMap.contains_insert_self (m : StrMap) (k : String) (v : Value) :
    (m.insert k v).contains k = true := by
  simp [StrMap.contains, StrMap.find?_insert_self]

theorem StrMap.contains_insert_of_ne (m : StrMap) (k key : String) (v : Value) (h : key ≠ k) :
    (m.insert k v).contains key = m.contains key := by
  simp [StrMap.contains, StrMap.find?_insert_of_ne m k key v h]

theorem StrMap.contains_erase_of_ne (m : StrMap) (k key : String) (h : key ≠ k) :
    (m.erase k).contains key = m.contains key := by
  simp [StrMap.contains, StrMap.find?_erase_of_ne m k key h]

theorem StrMap.contains_eq_isSome (m : StrMap) (k : String) :
    m.contains k = (m.find? k).isSome := rfl

/-- Clamping into the closed interval 3..5 is idempotent. -/
theorem clampDuration_idem (n : Int) :
    min (max (min (max n 3) 5) 3) 5 = min (max n 3) 5 := by omega

/-! ## Store lemmas -/

theorem updateFirst_of_findById_none (store : Store) (taskId : String)
    (patch : TaskDoc → TaskDoc) (h : findById store taskId = Option.none) :
    updateFirst store taskId patch = (false, store) := by
  induction store with
  | nil => rfl
  | cons d rest ih =>
      by_cases hid : d.id = taskId
      · simp [findById, hid] at h
      · simp only [findById, if_neg hid] at h
        simp [updateFirst, hid, ih h]

theorem updateFirst_of_findById_some (store : Store) (taskId : String)
    (patch : TaskDoc → TaskDoc) (d : TaskDoc) (h : findById store taskId = some d)
    (hid : (patch d).id = d.id) :
    (updateFirst store taskId patch).1 = (if patch d = d then false else true) ∧
    findById (updateFirst store taskId patch).2 taskId = some (patch d) := by
  induction store with
  | nil => simp [findById] at h
  | cons e rest ih =>
      by_cases he : e.id = taskId
      · simp only [findById, if_pos he] at h
        injection h with h
        subst h
        refine ⟨by simp [updateFirst, he], ?_⟩
        have hpe : (patch e).id = taskId := by rw [hid, he]
        simp [updateFirst, he, findById, hpe]
      · simp only [findById, if_neg he] at h
        obtain ⟨ih1, ih2⟩ := ih h
        exact ⟨by simp [updateFirst, he, ih1], by simp [updateFirst, he, findById, ih2]⟩

theorem updateStatusRepo_of_some (store : Store) (taskId newStatus now : String)
    (d : TaskDoc) (h : findById store taskId = some d) (hne : newStatus ≠ d.status) :
    (updateStatusRepo store taskId newStatus now).1 = true ∧
    findById (updateStatusRepo store taskId newStatus now).2 taskId =
      some { d with status := newStatus, updated_at := now } := by
  have key := updateFirst_of_findById_some store taskId
    (fun x => { x with status := newStatus, updated_at := now }) d h rfl
  have hpd : ({ d with status := newStatus, updated_at := now } : TaskDoc) ≠ d := by
    intro hh
    exact hne (congrArg TaskDoc.status hh)
  unfold updateStatusRepo
  rw [h]
  exact ⟨by rw [key.1, if_neg hpd], key.2⟩

/-- C3: `cancel_task` succeeds exactly when the job exists with a pending or
running status; on success the stored status becomes cancelled; on every
failure path the store — hence the record — is returned unchanged. -/
theorem cancelTask_spec (store : Store) (taskId now : String) :
    ((cancelTaskRepo store taskId now).1 = true ↔
      ∃ d, findById store taskId = some d ∧ (d.status = "pending" ∨ d.status = "running")) ∧
    (∀ d, findById store taskId = some d → (d.status = "pending" ∨ d.status = "running") →
      findById (cancelTaskRepo store taskId now).2 taskId =
        some { d with status := "cancelled", updated_at := now }) ∧
    ((cancelTaskRepo store taskId now).1 = false → (cancelTaskRepo store taskId now).2 = store) := by
  cases hfind : findById store taskId with
  | none =>
      refine ⟨?_, ?_, ?_⟩
      · simp [cancelTaskRepo, hfind]
      · intro d hd
        exact absurd hd (by simp)
      · intro _
        simp [cancelTaskRepo, hfind]
  | some task =>
      by_cases hst : task.status = "pending" ∨ task.status = "running"
      · have hcancel := updateStatusRepo_of_some store taskId "cancelled" now task hfind
          (by rcases hst with h | h <;> rw [h] <;> decide)
        have hrun : cancelTaskRepo store taskId now = updateStatusRepo store taskId "cancelled" now := by
          simp [cancelTaskRepo, hfind, hst]
        refine ⟨?_, ?_, ?_⟩
        · rw [hrun, hcancel.1]
          exact ⟨fun _ => ⟨task, rfl, hst⟩, fun _ => rfl⟩
        · intro d hd _
          injection hd with hd
          subst hd
          rw [hrun]
          exact hcancel.2
        · intro hfalse
          rw [hrun, hcancel.1] at hfalse
          exact absurd hfalse (by decide)
      · have hrun : cancelTaskRepo store taskId now = (false, store) := by
          simp [cancelTaskRepo, hfind, hst]
        refine ⟨?_, ?_, ?_⟩
        · rw [hrun]
          constructor
          · intro hh
            simp at hh
          · intro hex
            obtain ⟨d, hd, hpr⟩ := hex
            injection hd with hd
            subst hd
            exact absurd hpr hst
        · intro d hd hpr
          injection hd with hd
          subst hd
          exact absurd hpr hst
        · intro _
          rw [hrun]

/-- Witness for C3 at a concrete store: a pending job is cancelled
successfully, and cancelling an already completed job fails and leaves the
store untouched. -/
def demoPendingDoc : TaskDoc :=
  { id := "t1", tenant_id := "tenant1", user_id := "u1", status := "pending",
    created_at := "2026-01-01 00:00:00", updated_at := "2026-01-01 00:00:00",
    model := "wanx2.1-t2v-turbo", provider := "aliyun",
    parameters := [("prompt", Value.str "a cat")], is_async := true,
    result := Option.none, error := Option.none }

def demoCompletedDoc : TaskDoc :=
  { demoPendingDoc with
    id := "t2",
    status := "completed",
    result := some (Value.str "video") }

def demoCancelledDoc : TaskDoc :=
  { demoPendingDoc with
    id := "t3",
    status := "cancelled",
    updated_at := "2026-01-01 00:05:00" }

theorem cancelTask_spec_witness :
    (cancelTaskRepo [demoPendingDoc, demoCompletedDoc] "t1" "2026-01-01 01:00:00").1 = true ∧
    findById (cancelTaskRepo [demoPendingDoc, demoCompletedDoc] "t1" "2026-01-01 01:00:00").2 "t1" =
      some { demoPendingDoc with status := "cancelled", updated_at := "2026-01-01 01:00:00" } ∧
    (cancelTaskRepo [demoPendingDoc, demoCompletedDoc] "t2" "2026-01-01 01:00:00").1 = false ∧
    (cancelTaskRepo [demoPendingDoc, demoCompletedDoc] "t2" "2026-01-01 01:00:00").2 =
      [demoPendingDoc, demoCompletedDoc] := by
  have h1 := cancelTask_spec [demoPendingDoc, demoCompletedDoc] "t1" "2026-01-01 01:00:00"
  have h2 := cancelTask_spec [demoPendingDoc, demoCompletedDoc] "t2" "2026-01-01 01:00:00"
  refine ⟨?_, ?_, ?_, ?_⟩
  · exact h1.1.mpr ⟨demoPendingDoc, by decide, by decide⟩
  · exact h1.2.1 demoPendingDoc (by decide) (by decide)
  · decide
  · exact h2.2.2 (by decide)

/-- C1: the worker terminal write (`update_task_result`) filters only on the
id with no status guard, so applied to an already Cancelled record it
rewrites the status to Completed — the Cancelled state is not sticky. -/
theorem worker_terminal_write_overwrites_cancelled :
    demoCancelledDoc.status = "cancelled" ∧
    (findById (updateTaskResultW [demoCancelledDoc] "t3" (Value.str "video-url")
        "2026-01-01 00:10:00").2 "t3").map TaskDoc.status = some "completed" := by
  decide

/-- C2: creating a task whose model is not in the resolved provider
supported-model list fails synchronously with the message enumerating the
supported models, and performs no store insert. -/
theorem createTask_unsupported_model (store : Store)
    (tenant_id user_id model provider : String) (parameters : StrMap)
    (is_async : Bool) (now newId : String) (sm : List String)
    (hsm : registrySupportedModels provider = some sm)
    (hmodel : sm.contains model = false) :
    createTask store tenant_id user_id model provider parameters is_async now newId =
      (Except.error (unsupportedModelMsg model sm), store) := by
  by_cases ha : provider = "aliyun"
  · subst ha
    rw [show registrySupportedModels "aliyun" = some aliyunSupportedModels from rfl] at hsm
    injection hsm with hsm
    subst hsm
    have hmem : ¬ model ∈ aliyunSupportedModels := by simpa using hmodel
    simp only [createTask]
    rw [show registryValidate "aliyun" = some aliyunValidate from rfl]
    simp [aliyunValidate, aliyunCheckModel, hmodel, hmem]
  · by_cases hz : provider = "zhipuai"
    · subst hz
      rw [show registrySupportedModels "zhipuai" = some zhipuSupportedModels from rfl] at hsm
      injection hsm with hsm
      subst hsm
      have hmem : ¬ model ∈ zhipuSupportedModels := by simpa using hmodel
      simp only [createTask]
      rw [show registryValidate "zhipuai" = some zhipuValidate from rfl]
      simp [zhipuValidate, hmodel, hmem]
    · simp [registrySupportedModels, ha, hz] at hsm

/-- Witness for C2: an unsupported model on the aliyun provider and on the
zhipuai provider, both leaving an empty store empty. -/
theorem createTask_unsupported_model_witness :
    createTask [] "tenant1" "u1" "gpt-video" "aliyun" [("prompt", Value.str "x")]
        true "2026-01-01 00:00:00" "t9" =
      (Except.error (unsupportedModelMsg "gpt-video" aliyunSupportedModels), []) ∧
    createTask [] "tenant1" "u1" "wanx2.1-t2v-turbo" "zhipuai" [("prompt", Value.str "x")]
        true "2026-01-01 00:00:00" "t9" =
      (Except.error (unsupportedModelMsg "wanx2.1-t2v-turbo" zhipuSupportedModels), []) :=
  ⟨createTask_unsupported_model [] "tenant1" "u1" "gpt-video" "aliyun"
      [("prompt", Value.str "x")] true "2026-01-01 00:00:00" "t9"
      aliyunSupportedModels (by decide) (by decide),
   createTask_unsupported_model [] "tenant1" "u1" "wanx2.1-t2v-turbo" "zhipuai"
      [("prompt", Value.str "x")] true "2026-01-01 00:00:00" "t9"
      zhipuSupportedModels (by decide) (by decide)⟩

/-- C8: listing pagination is offset based — skip = (page-1)*pageSize with
limit = pageSize — and total_pages is the ceiling of total/pageSize except
that an empty listing reports one page. -/
theorem pagination_spec (page pageSize total : Nat) (_hps : 1 ≤ pageSize) :
    paginationSkipLimit page pageSize = ((page - 1) * pageSize, pageSize) ∧
    (total = 0 → computeTotalPages total pageSize = 1) ∧
    (0 < total → computeTotalPages total pageSize = total ⌈/⌉ pageSize) := by
  refine ⟨rfl, ?_, ?_⟩
  · intro h
    simp [computeTotalPages, h]
  · intro h
    rw [Nat.ceilDiv_eq_add_pred_div]
    simp [computeTotalPages, h]

/-- Witness for C8: page 2 with page size 10 skips 10 and limits to 10; 25
items over pages of 10 give 3 pages; an empty listing reports one page. -/
theorem pagination_spec_witness :
    paginationSkipLimit 2 10 = (10, 10) ∧
    computeTotalPages 0 10 = 1 ∧
    computeTotalPages 25 10 = 3 ∧ (25 : Nat) ⌈/⌉ 10 = 3 := by
  have h := pagination_spec 2 10 25 (by decide)
  refine ⟨h.1, ?_, by decide, ?_⟩
  · exact (pagination_spec 2 10 0 (by decide)).2.1 rfl
  · rw [← h.2.2 (by decide)]
    decide

/-- C9: the artifact download returns the destination path on success and
the empty string on every failure — nothing propagates past the boundary —
and a generation job whose download fails still assembles a successful
canonical result whose media descriptor carries an empty local path. -/
theorem download_failure_contained (savePath requestId nowStr videoUrl : String)
    (params : StrMap) (actualPrompt : Option Value) (hurl : videoUrl ≠ "") :
    (∀ outcome : Except String Unit,
      downloadVideo outcome savePath = savePath ∨ downloadVideo outcome savePath = "") ∧
    downloadVideo (Except.ok ()) savePath = savePath ∧
    (∀ msg : String, downloadVideo (Except.error msg) savePath = "") ∧
    (∀ msg : String,
      formatResponse videoUrl actualPrompt (Except.error msg) params requestId nowStr savePath =
        Except.ok
          { id := requestId,
            model := (params.find? "model").getD (Value.str ""),
            created := nowStr,
            videos := [{ index := 0, url := videoUrl, local_path := "",
                         duration := (params.find? "duration").getD (Value.int 5) }],
            prompt := params.find? "prompt",
            actual_prompt := actualPrompt,
            model_type := (params.find? "model_type").getD (Value.str ""),
            resolution := params.find? "resolution" }) := by
  refine ⟨?_, rfl, fun msg => rfl, ?_⟩
  · intro outcome
    cases outcome with
    | ok u => exact Or.inl rfl
    | error e => exact Or.inr rfl
  · intro msg
    simp [formatResponse, hurl, downloadVideo]

/-- Witness for C9: a concrete failed download still yields a successful
canonical result with an empty local path. -/
theorem download_failure_contained_witness :
    formatResponse "http://cdn/video.mp4" Option.none (Except.error "connection reset")
        [("prompt", Value.str "a cat"), ("model_type", Value.str "text_to_video")]
        "req1" "2026-01-01 00:00:00" "/data/videos/aliyun/v.mp4" =
      Except.ok
        { id := "req1",
          model := Value.str "",
          created := "2026-01-01 00:00:00",
          videos := [{ index := 0, url := "http://cdn/video.mp4", local_path := "",
                       duration := Value.int 5 }],
          prompt := some (Value.str "a cat"),
          actual_prompt := Option.none,
          model_type := Value.str "text_to_video",
          resolution := Option.none } :=
  (download_failure_contained "/data/videos/aliyun/v.mp4" "req1" "2026-01-01 00:00:00"
    "http://cdn/video.mp4"
    [("prompt", Value.str "a cat"), ("model_type", Value.str "text_to_video")]
    Option.none (by decide)).2.2.2 "connection reset"

/-! ## Poll loop: C7 -/

/-- When no response within the remaining budget is terminal, the poll loop
exhausts its budget and raises the poll-ceiling ValueError. -/
theorem aliyunPollFrom_timeout (taskId : String) (responses : Nat → PollOutput) :
    ∀ remaining i,
      (∀ j, j < remaining →
        aliyunSuccessStatuses.contains (responses (i + j)).task_status = false ∧
        aliyunFailStatuses.contains (responses (i + j)).task_status = false) →
      aliyunPollFrom taskId responses i remaining =
        Except.error { excClass := "ValueError", msg := aliyunTimeoutMsg taskId } := by
  intro remaining
  induction remaining with
  | zero => intro i _; rfl
  | succ r ih =>
      intro i hall
      have h0 := hall 0 (Nat.succ_pos r)
      simp only [Nat.add_zero] at h0
      have hrest : ∀ j, j < r →
          aliyunSuccessStatuses.contains (responses (i + 1 + j)).task_status = false ∧
          aliyunFailStatuses.contains (responses (i + 1 + j)).task_status = false := by
        intro j hj
        have hidx : i + 1 + j = i + (j + 1) := by omega
        rw [hidx]
        exact hall (j + 1) (Nat.succ_lt_succ hj)
      have h0s : ¬ (responses i).task_status ∈ aliyunSuccessStatuses := by simpa using h0.1
      have h0f : ¬ (responses i).task_status ∈ aliyunFailStatuses := by simpa using h0.2
      simp [aliyunPollFrom, h0s, h0f, ih (i + 1) hrest]

/-- Counterexample to C7 as stated: there is no distinct `Timeout` error
kind — a run that exhausts the poll ceiling and a run that hits the remote
failure vocabulary both raise the same exception kind, ValueError; the two
outcomes differ only in their message text. -/
def pendingResponses : Nat → PollOutput :=
  fun _ => { task_status := "PENDING", message := Option.none, code := Option.none }

def failedResponses : Nat → PollOutput :=
  fun _ => { task_status := "FAILED", message := some "internal error",
             code := some "InternalError" }

set_option maxRecDepth 4000 in
theorem timeout_error_not_distinct_kind :
    errClassOf (aliyunPoll "task-1" pendingResponses) = some "ValueError" ∧
    errClassOf (aliyunPoll "task-1" failedResponses) = some "ValueError" ∧
    errClassOf (aliyunPoll "task-1" pendingResponses) =
      errClassOf (aliyunPoll "task-1" failedResponses) := by
  refine ⟨?_, rfl, ?_⟩ <;> decide

/-- C7 (amended): when none of the 180 polled responses is in the
terminal-success or terminal-failure vocabulary, the call raises a
ValueError — the same exception kind as an ordinary remote failure —
carrying the distinct timeout message, wrapped by the adapter catch-all;
the worker then records the job as Failed with exactly that message. -/
theorem aliyunPoll_timeout_marks_failed (taskId now : String)
    (responses : Nat → PollOutput) (store : Store) (d : TaskDoc)
    (hall : ∀ j, j < aliyunMaxRetries →
        aliyunSuccessStatuses.contains (responses j).task_status = false ∧
        aliyunFailStatuses.contains (responses j).task_status = false)
    (hd : findById store taskId = some d) :
    aliyunWrapErr (aliyunPoll taskId responses) =
      Except.error { excClass := "ValueError",
                     msg := "Aliyun API error: " ++ aliyunTimeoutMsg taskId } ∧
    findById (updateTaskErrorW store taskId
        ("Aliyun API error: " ++ aliyunTimeoutMsg taskId) now).2 taskId =
      some { d with status := "failed",
                    error := some ("Aliyun API error: " ++ aliyunTimeoutMsg taskId),
                    updated_at := now } := by
  have hpoll := aliyunPollFrom_timeout taskId responses aliyunMaxRetries 0
    (by simpa using hall)
  constructor
  · rw [aliyunPoll, hpoll]
    rfl
  · exact (updateFirst_of_findById_some store taskId
      (fun x => { x with status := "failed",
                         error := some ("Aliyun API error: " ++ aliyunTimeoutMsg taskId),
                         updated_at := now }) d hd rfl).2

set_option maxRecDepth 4000 in
/-- Witness for C7 (amended) at a concrete store and a constant
still-running poll stream. -/
theorem aliyunPoll_timeout_marks_failed_witness :
    aliyunWrapErr (aliyunPoll "t1" pendingResponses) =
      Except.error { excClass := "ValueError",
                     msg := "Aliyun API error: " ++ aliyunTimeoutMsg "t1" } ∧
    findById (updateTaskErrorW [demoPendingDoc] "t1"
        ("Aliyun API error: " ++ aliyunTimeoutMsg "t1") "2026-01-01 01:00:00").2 "t1" =
      some { demoPendingDoc with
             status := "failed",
             error := some ("Aliyun API error: " ++ aliyunTimeoutMsg "t1"),
             updated_at := "2026-01-01 01:00:00" } :=
  aliyunPoll_timeout_marks_failed "t1" "2026-01-01 01:00:00" pendingResponses
    [demoPendingDoc] demoPendingDoc (by decide) (by decide)

/-! ## Heap-level frame property: C10 -/

theorem heapGet_append_lt (h : Heap) (m : StrMap) (pa : Nat) (hpa : pa < h.length) :
    heapGet (h ++ [m]) pa = heapGet h pa :=
  List.getD_append h [m] [] pa hpa

theorem heapSet_append_len (h : Heap) (m x : StrMap) :
    heapSet (h ++ [m]) h.length x = h ++ [x] := by
  induction h with
  | nil => rfl
  | cons a rest ih =>
      show a :: heapSet (rest ++ [m]) rest.length x = a :: (rest ++ [x])
      rw [ih]

/-- C10: `validate_parameters` never mutates its argument — the adapter
normalizes a copy, so the caller-owned dict reads identically after the
call, whether the call returns normally or raises, for both adapters. -/
theorem validate_no_caller_mutation (model : String) (h : Heap) (pa : Nat)
    (hpa : pa < h.length) :
    heapGet (runHeap (aliyunValidateHeap model h pa)) pa = heapGet h pa ∧
    heapGet (runHeap (zhipuValidateHeap model h pa)) pa = heapGet h pa := by
  constructor
  · show heapGet (runHeap (aliyunValidateHeap model h pa)) pa = heapGet h pa
    unfold aliyunValidateHeap
    cases aliyunCheckModel model with
    | error e => simp [runHeap, heapGet_append_lt _ _ _ hpa]
    | ok u =>
        simp only [heapSet_append_len]
        cases aliyunRequired (determineModelType model) _ with
        | error e => simp [runHeap, heapGet_append_lt _ _ _ hpa]
        | ok v1 =>
            simp only [heapSet_append_len]
            cases aliyunDuration (determineModelType model) _ with
            | error e => simp [runHeap, heapGet_append_lt _ _ _ hpa]
            | ok v2 =>
                simp only [heapSet_append_len]
                simp [runHeap, heapGet_append_lt _ _ _ hpa]
  · show heapGet (runHeap (zhipuValidateHeap model h pa)) pa = heapGet h pa
    unfold zhipuValidateHeap
    by_cases hm : zhipuSupportedModels.contains model
    · simp only [hm, Bool.not_true]
      cases zhipuRequired model _ with
      | error e => simp [runHeap, heapGet_append_lt _ _ _ hpa]
      | ok v1 =>
          simp only [heapSet_append_len]
          simp [runHeap, heapGet_append_lt _ _ _ hpa]
    · simp only [Bool.not_eq_true] at hm
      have hmem : ¬ model ∈ zhipuSupportedModels := by simpa using hm
      simp [hm, hmem, runHeap, heapGet_append_lt _ _ _ hpa]

/-- Witness for C10 at a concrete heap: one caller-owned dict, read back
unchanged after an aliyun success run and after a zhipuai
unsupported-model raise. -/
theorem validate_no_caller_mutation_witness :
    heapGet (runHeap (aliyunValidateHeap "wanx2.1-t2v-turbo"
        [[("prompt", Value.str "a cat")]] 0)) 0 = [("prompt", Value.str "a cat")] ∧
    heapGet (runHeap (zhipuValidateHeap "wanx2.1-t2v-turbo"
        [[("prompt", Value.str "a cat")]] 0)) 0 = [("prompt", Value.str "a cat")] :=
  validate_no_caller_mutation "wanx2.1-t2v-turbo" [[("prompt", Value.str "a cat")]] 0
    (by decide)

/-! ## Stage lemmas for `aliyunValidate`: C4, C5, C6 -/

theorem aliyunValidate_ok_inv (model : String) (p v : StrMap)
    (h : aliyunValidate model p = Except.ok v) :
    ∃ m2 m3,
      aliyunCheckModel model = Except.ok () ∧
      aliyunRequired (determineModelType model)
        (p.insert "model_type" (Value.str (determineModelType model))) = Except.ok m2 ∧
      aliyunDuration (determineModelType model) m2 = Except.ok m3 ∧
      v = aliyunDefaults (aliyunResolution model (determineModelType model) m3) := by
  unfold aliyunValidate at h
  cases hc : aliyunCheckModel model with
  | error e =>
      simp only [hc] at h
      exact Except.noConfusion h
  | ok u =>
      cases u
      simp only [hc] at h
      cases hr : aliyunRequired (determineModelType model)
          (p.insert "model_type" (Value.str (determineModelType model))) with
      | error e =>
          simp only [hr] at h
          exact Except.noConfusion h
      | ok m2 =>
          simp only [hr] at h
          cases hdur : aliyunDuration (determineModelType model) m2 with
          | error e =>
              simp only [hdur] at h
              exact Except.noConfusion h
          | ok m3 =>
              simp only [hdur, Except.ok.injEq] at h
              exact ⟨m2, m3, rfl, rfl, hdur, h.symm⟩

theorem aliyunRequired_find?_of_ne (modelType : String) (m m2 : StrMap) (k : String)
    (h : aliyunRequired modelType m = Except.ok m2)
    (h1 : k ≠ "img_url") (h2 : k ≠ "source_image") :
    m2.find? k = m.find? k := by
  unfold aliyunRequired at h
  split_ifs at h
  all_goals first
    | exact Except.noConfusion h
    | (injection h with hh; subst hh; rfl)
    | (injection h with hh; subst hh;
       rw [StrMap.find?_erase_of_ne _ _ _ h2, StrMap.find?_insert_of_ne _ _ _ _ h1])

theorem aliyunDuration_find?_of_ne (modelType : String) (m m2 : StrMap) (k : String)
    (h : aliyunDuration modelType m = Except.ok m2) (hk : k ≠ "duration") :
    m2.find? k = m.find? k := by
  unfold aliyunDuration at h
  by_cases hc : m.contains "duration" = false
  · rw [if_pos hc] at h
    injection h with hh
    subst hh
    rw [StrMap.find?_insert_of_ne _ _ _ _ hk]
  · rw [if_neg hc] at h
    by_cases hdyn : modelType = "text_to_video" ∨ modelType = "image_to_video"
    · rw [if_pos hdyn] at h
      cases hp : pyToInt (m.getV "duration") with
      | ok n =>
          rw [hp] at h
          injection h with hh
          subst hh
          rw [StrMap.find?_insert_of_ne _ _ _ _ hk]
      | error e =>
          rw [hp] at h
          exact Except.noConfusion h
    · rw [if_neg hdyn] at h
      injection h with hh
      subst hh
      rw [StrMap.find?_insert_of_ne _ _ _ _ hk]

theorem aliyunResolution_find?_of_ne (model modelType : String) (m : StrMap) (k : String)
    (h1 : k ≠ "resolution") (h2 : k ≠ "size") :
    (aliyunResolution model modelType m).find? k = m.find? k := by
  unfold aliyunResolution
  split_ifs
  all_goals first
    | rfl
    | rw [StrMap.find?_insert_of_ne _ _ _ _ h1]
    | rw [StrMap.find?_erase_of_ne _ _ _ h2, StrMap.find?_insert_of_ne _ _ _ _ h1]

theorem aliyunDefaults_find?_of_ne (m : StrMap) (k : String)
    (h1 : k ≠ "prompt_extend") (h2 : k ≠ "seed") :
    (aliyunDefaults m).find? k = m.find? k := by
  unfold aliyunDefaults
  simp only []
  by_cases hpe : m.contains "prompt_extend" = false
  · rw [if_pos hpe]
    by_cases hs : (m.insert "prompt_extend" (Value.bool true)).contains "seed" = false
    · rw [if_pos hs, StrMap.find?_insert_of_ne _ _ _ _ h2,
          StrMap.find?_insert_of_ne _ _ _ _ h1]
    · rw [if_neg hs, StrMap.find?_insert_of_ne _ _ _ _ h1]
  · rw [if_neg hpe]
    by_cases hs : m.contains "seed" = false
    · rw [if_pos hs, StrMap.find?_insert_of_ne _ _ _ _ h2]
    · rw [if_neg hs]

/-- C4: for a successful aliyun validation, a supplied integer duration is
clamped into [3,5] for the dynamic-duration kinds (text/image-to-video),
the keyframe kind always normalizes to the constant 5, and an absent
duration defaults to 5. -/
theorem aliyunValidate_duration_clamped (model : String) (p v : StrMap)
    (h : aliyunValidate model p = Except.ok v) :
    ((determineModelType model = "text_to_video" ∨
        determineModelType model = "image_to_video") →
      ∀ n : Int, p.find? "duration" = some (Value.int n) →
        v.find? "duration" = some (Value.int (min (max n 3) 5))) ∧
    (determineModelType model = "keyframe_to_video" →
      v.find? "duration" = some (Value.int 5)) ∧
    (p.contains "duration" = false → v.find? "duration" = some (Value.int 5)) := by
  obtain ⟨m2, m3, hc, hr, hdur, hv⟩ := aliyunValidate_ok_inv model p v h
  have hm2dur : m2.find? "duration" = p.find? "duration" := by
    rw [aliyunRequired_find?_of_ne _ _ _ _ hr (by decide) (by decide),
        StrMap.find?_insert_of_ne _ _ _ _ (by decide)]
  have hvdur : v.find? "duration" = m3.find? "duration" := by
    rw [hv, aliyunDefaults_find?_of_ne _ _ (by decide) (by decide),
        aliyunResolution_find?_of_ne _ _ _ _ (by decide) (by decide)]
  refine ⟨?_, ?_, ?_⟩
  · intro hdyn n hpn
    have hm2 : m2.find? "duration" = some (Value.int n) := by rw [hm2dur, hpn]
    have hcont : m2.contains "duration" = true := by
      rw [StrMap.contains_eq_isSome, hm2]
      rfl
    unfold aliyunDuration at hdur
    rw [if_neg (by simp [hcont]), if_pos hdyn] at hdur
    have hget : m2.getV "duration" = Value.int n := by
      rw [StrMap.getV, hm2]
      rfl
    rw [hget] at hdur
    simp only [pyToInt] at hdur
    injection hdur with hdur
    rw [hvdur, ← hdur, StrMap.find?_insert_self]
  · intro hkf
    unfold aliyunDuration at hdur
    by_cases hcont : m2.contains "duration" = false
    · rw [if_pos hcont] at hdur
      injection hdur with hdur
      rw [hvdur, ← hdur, StrMap.find?_insert_self]
    · rw [if_neg hcont, if_neg (by rw [hkf]; decide)] at hdur
      injection hdur with hdur
      rw [hvdur, ← hdur, StrMap.find?_insert_self]
  · intro habs
    have hm2c : m2.contains "duration" = false := by
      rw [StrMap.contains_eq_isSome, hm2dur, ← StrMap.contains_eq_isSome]
      exact habs
    unfold aliyunDuration at hdur
    rw [if_pos hm2c] at hdur
    injection hdur with hdur
    rw [hvdur, ← hdur, StrMap.find?_insert_self]

/-- Witness for C4: duration 1 on a text-to-video model normalizes to 3,
duration 9 on a keyframe-to-video model normalizes to 5, and an absent
duration defaults to 5. -/
theorem aliyunValidate_duration_clamped_witness :
    StrMap.find? [("prompt", Value.str "a"), ("duration", Value.int 3),
        ("model_type", Value.str "text_to_video"), ("resolution", Value.str "720P"),
        ("prompt_extend", Value.bool true), ("seed", Value.int (-1))] "duration" =
      some (Value.int (min (max 1 3) 5)) ∧
    StrMap.find? [("first_frame_url", Value.str "http://a"),
        ("last_frame_url", Value.str "http://b"), ("duration", Value.int 5),
        ("model_type", Value.str "keyframe_to_video"), ("resolution", Value.str "720P"),
        ("prompt_extend", Value.bool true), ("seed", Value.int (-1))] "duration" =
      some (Value.int 5) ∧
    StrMap.find? [("prompt", Value.str "a"), ("model_type", Value.str "text_to_video"),
        ("duration", Value.int 5), ("resolution", Value.str "720P"),
        ("prompt_extend", Value.bool true), ("seed", Value.int (-1))] "duration" =
      some (Value.int 5) :=
  ⟨(aliyunValidate_duration_clamped "wanx2.1-t2v-turbo"
      [("prompt", Value.str "a"), ("duration", Value.int 1)]
      [("prompt", Value.str "a"), ("duration", Value.int 3),
       ("model_type", Value.str "text_to_video"), ("resolution", Value.str "720P"),
       ("prompt_extend", Value.bool true), ("seed", Value.int (-1))]
      (by decide)).1 (by decide) 1 (by decide),
   (aliyunValidate_duration_clamped "wanx2.1-kf2v-plus"
      [("first_frame_url", Value.str "http://a"), ("last_frame_url", Value.str "http://b"),
       ("duration", Value.int 9)]
      [("first_frame_url", Value.str "http://a"), ("last_frame_url", Value.str "http://b"),
       ("duration", Value.int 5), ("model_type", Value.str "keyframe_to_video"),
       ("resolution", Value.str "720P"), ("prompt_extend", Value.bool true),
       ("seed", Value.int (-1))]
      (by decide)).2.1 (by decide),
   (aliyunValidate_duration_clamped "wanx2.1-t2v-plus"
      [("prompt", Value.str "a")]
      [("prompt", Value.str "a"), ("model_type", Value.str "text_to_video"),
       ("duration", Value.int 5), ("resolution", Value.str "720P"),
       ("prompt_extend", Value.bool true), ("seed", Value.int (-1))]
      (by decide)).2.2 (by decide)⟩

/-! ## Legacy alias consumption: C6 -/

/-- Success of a validate run paired with a membership test on the
normalized output. -/
def okContains (r : Except String StrMap) (k : String) : Bool :=
  match r with
  | Except.ok v => v.contains k
  | Except.error _ => false

/-- Counterexample to C6 as stated: when the input also supplies the
canonical key, the legacy alias survives validation — an image-to-video
input carrying both `img_url` and `source_image` keeps `source_image` in
the normalized output, and an input carrying both `resolution` and `size`
keeps `size`. -/
theorem alias_not_consumed_when_canonical_present :
    okContains (aliyunValidate "wanx2.1-i2v-turbo"
      [("prompt", Value.str "x"), ("img_url", Value.str "http://a"),
       ("source_image", Value.str "http://b")]) "source_image" = true ∧
    okContains (aliyunValidate "wanx2.1-t2v-turbo"
      [("prompt", Value.str "x"), ("resolution", Value.str "480P"),
       ("size", Value.str "1280*720")]) "size" = true := by decide

theorem aliyunRequired_no_source_of_no_img (m m2 : StrMap)
    (h : aliyunRequired "image_to_video" m = Except.ok m2)
    (himg : m.contains "img_url" = false) :
    m2.contains "source_image" = false := by
  unfold aliyunRequired at h
  by_cases hp : m.contains "prompt" = false
  · rw [if_pos ⟨hp, by decide⟩] at h
    exact Except.noConfusion h
  · rw [if_neg (by simp [hp]), if_pos rfl] at h
    by_cases hsrc : m.contains "source_image" = false
    · rw [if_pos ⟨himg, hsrc⟩] at h
      exact Except.noConfusion h
    · have hsrcT : m.contains "source_image" = true := by
        cases hval : m.contains "source_image" with
        | false => exact absurd hval hsrc
        | true => rfl
      rw [if_neg (by simp [hsrcT]), if_pos ⟨hsrcT, himg⟩] at h
      injection h with h
      subst h
      rw [StrMap.contains_eq_isSome, StrMap.find?_erase_self]
      rfl

theorem aliyunResolution_contains_size_false (model modelType : String) (m : StrMap)
    (hres : m.contains "resolution" = false) :
    (aliyunResolution model modelType m).contains "size" = false := by
  unfold aliyunResolution
  rw [if_pos hres]
  by_cases hsz : m.contains "size" = true
  · rw [if_pos hsz, StrMap.contains_eq_isSome, StrMap.find?_erase_self]
    rfl
  · rw [if_neg hsz]
    have hszf : m.contains "size" = false := by
      cases hval : m.contains "size" with
      | true => exact absurd hval hsz
      | false => rfl
    split_ifs <;> rw [StrMap.contains_insert_of_ne _ _ _ _ (by decide)] <;> exact hszf

/-- C6 (amended): the legacy alias keys are consumed exactly when the
canonical key is absent from the input — for an image-to-video model
without `img_url` the output never contains `source_image`, and an input
without `resolution` yields an output without `size`; when the canonical
key is also supplied, the alias key is left in the output. -/
theorem aliyunValidate_alias_consumed (model : String) (p v : StrMap)
    (h : aliyunValidate model p = Except.ok v) :
    (determineModelType model = "image_to_video" → p.contains "img_url" = false →
      v.contains "source_image" = false) ∧
    (p.contains "resolution" = false → v.contains "size" = false) := by
  obtain ⟨m2, m3, hc, hr, hdur, hv⟩ := aliyunValidate_ok_inv model p v h
  constructor
  · intro hmt himg
    rw [hmt] at hr
    have h1 : (p.insert "model_type"
        (Value.str "image_to_video")).contains "img_url" = false := by
      rw [StrMap.contains_insert_of_ne _ _ _ _ (by decide)]
      exact himg
    have h2 : m2.contains "source_image" = false :=
      aliyunRequired_no_source_of_no_img _ _ hr h1
    have h3 : m3.contains "source_image" = false := by
      rw [StrMap.contains_eq_isSome, aliyunDuration_find?_of_ne _ _ _ _ hdur (by decide),
          ← StrMap.contains_eq_isSome]
      exact h2
    rw [hv, StrMap.contains_eq_isSome,
        aliyunDefaults_find?_of_ne _ _ (by decide) (by decide),
        aliyunResolution_find?_of_ne _ _ _ _ (by decide) (by decide),
        ← StrMap.contains_eq_isSome]
    exact h3
  · intro hres
    have hm3res : m3.contains "resolution" = false := by
      rw [StrMap.contains_eq_isSome,
          aliyunDuration_find?_of_ne _ _ _ _ hdur (by decide),
          aliyunRequired_find?_of_ne _ _ _ _ hr (by decide) (by decide),
          StrMap.find?_insert_of_ne _ _ _ _ (by decide),
          ← StrMap.contains_eq_isSome]
      exact hres
    have h4 : (aliyunResolution model (determineModelType model) m3).contains "size" = false :=
      aliyunResolution_contains_size_false _ _ _ hm3res
    rw [hv, StrMap.contains_eq_isSome,
        aliyunDefaults_find?_of_ne _ _ (by decide) (by decide),
        ← StrMap.contains_eq_isSome]
    exact h4

/-- Witness for C6 (amended): an image-to-video input carrying only the
legacy `source_image` key, and an input carrying only the legacy `size`
key, both validated with the alias fully consumed. -/
theorem aliyunValidate_alias_consumed_witness :
    StrMap.contains [("prompt", Value.str "x"),
        ("model_type", Value.str "image_to_video"), ("img_url", Value.str "http://b"),
        ("duration", Value.int 5), ("resolution", Value.str "720P"),
        ("prompt_extend", Value.bool true),
        ("seed", Value.int (-1))] "source_image" = false ∧
    StrMap.contains [("prompt", Value.str "x"),
        ("model_type", Value.str "text_to_video"), ("duration", Value.int 5),
        ("resolution", Value.str "720P"), ("prompt_extend", Value.bool true),
        ("seed", Value.int (-1))] "size" = false :=
  ⟨(aliyunValidate_alias_consumed "wanx2.1-i2v-turbo"
      [("prompt", Value.str "x"), ("source_image", Value.str "http://b")]
      [("prompt", Value.str "x"), ("model_type", Value.str "image_to_video"),
       ("img_url", Value.str "http://b"), ("duration", Value.int 5),
       ("resolution", Value.str "720P"), ("prompt_extend", Value.bool true),
       ("seed", Value.int (-1))]
      (by decide)).1 (by decide) (by decide),
   (aliyunValidate_alias_consumed "wanx2.1-t2v-turbo"
      [("prompt", Value.str "x"), ("size", Value.str "1280*720")]
      [("prompt", Value.str "x"), ("model_type", Value.str "text_to_video"),
       ("duration", Value.int 5), ("resolution", Value.str "720P"),
       ("prompt_extend", Value.bool true), ("seed", Value.int (-1))]
      (by decide)).2 (by decide)⟩

/-! ## Idempotence of validate_parameters: C5 (aliyun side) -/

theorem bool_true_of_not_false {b : Bool} (h : ¬ b = false) : b = true := by
  cases b with
  | true => rfl
  | false => exact absurd rfl h

theorem StrMap.contains_congr (m1 m2 : StrMap) (k : String)
    (h : m1.find? k = m2.find? k) : m1.contains k = m2.contains k := by
  rw [StrMap.contains_eq_isSome, StrMap.contains_eq_isSome, h]

/-- Shape of every successful aliyun normalization: the model is supported,
the model kind is recorded, the kind-conditioned required fields are
present, the duration is a clamp-fixed integer (5 for non-dynamic kinds),
and resolution, prompt_extend and seed are filled. -/
def aliyunNormalized (model : String) (v : StrMap) : Prop :=
  aliyunSupportedModels.contains model = true ∧
  v.find? "model_type" = some (Value.str (determineModelType model)) ∧
  (determineModelType model ≠ "keyframe_to_video" → v.contains "prompt" = true) ∧
  (determineModelType model = "image_to_video" → v.contains "img_url" = true) ∧
  (determineModelType model = "keyframe_to_video" →
    v.contains "first_frame_url" = true ∧ v.contains "last_frame_url" = true) ∧
  (∃ d : Int, v.find? "duration" = some (Value.int d) ∧
    min (max d 3) 5 = d ∧
    (¬(determineModelType model = "text_to_video" ∨
        determineModelType model = "image_to_video") → d = 5)) ∧
  v.contains "resolution" = true ∧
  v.contains "prompt_extend" = true ∧
  v.contains "seed" = true

theorem aliyunCheckModel_ok (model : String)
    (h : aliyunCheckModel model = Except.ok ()) :
    aliyunSupportedModels.contains model = true := by
  unfold aliyunCheckModel at h
  cases hc : aliyunSupportedModels.contains model with
  | true => rfl
  | false =>
      rw [hc] at h
      exact Except.noConfusion h

theorem aliyunRequired_ok_prompt (modelType : String) (m m2 : StrMap)
    (h : aliyunRequired modelType m = Except.ok m2)
    (hmt : modelType ≠ "keyframe_to_video") :
    m.contains "prompt" = true := by
  unfold aliyunRequired at h
  by_cases hp : m.contains "prompt" = false
  · rw [if_pos ⟨hp, hmt⟩] at h
    exact Except.noConfusion h
  · exact bool_true_of_not_false hp

theorem aliyunRequired_i2v_img (m m2 : StrMap)
    (h : aliyunRequired "image_to_video" m = Except.ok m2) :
    m2.contains "img_url" = true := by
  unfold aliyunRequired at h
  by_cases hp : m.contains "prompt" = false
  · rw [if_pos ⟨hp, by decide⟩] at h
    exact Except.noConfusion h
  · rw [if_neg (by simp [hp]), if_pos rfl] at h
    by_cases himg : m.contains "img_url" = true
    · rw [if_neg (by simp [himg]), if_neg (by simp [himg])] at h
      injection h with h
      subst h
      exact himg
    · have himgf : m.contains "img_url" = false := by
        cases hval : m.contains "img_url" with
        | true => exact absurd hval himg
        | false => rfl
      by_cases hsrc : m.contains "source_image" = false
      · rw [if_pos ⟨himgf, hsrc⟩] at h
        exact Except.noConfusion h
      · have hsrcT := bool_true_of_not_false hsrc
        rw [if_neg (by simp [hsrcT]), if_pos ⟨hsrcT, himgf⟩] at h
        injection h with h
        subst h
        rw [StrMap.contains_erase_of_ne _ _ _ (by decide), StrMap.contains_insert_self]

theorem aliyunRequired_kf2v_frames (m m2 : StrMap)
    (h : aliyunRequired "keyframe_to_video" m = Except.ok m2) :
    m2 = m ∧ m.contains "first_frame_url" = true ∧ m.contains "last_frame_url" = true := by
  unfold aliyunRequired at h
  rw [if_neg (by simp), if_neg (by decide), if_pos rfl] at h
  by_cases hf : m.contains "first_frame_url" = false
  · rw [if_pos hf] at h
    exact Except.noConfusion h
  · rw [if_neg hf] at h
    by_cases hl : m.contains "last_frame_url" = false
    · rw [if_pos hl] at h
      exact Except.noConfusion h
    · rw [if_neg hl] at h
      injection h with h
      exact ⟨h.symm, bool_true_of_not_false hf, bool_true_of_not_false hl⟩

theorem aliyunDuration_ok_duration (modelType : String) (m m2 : StrMap)
    (h : aliyunDuration modelType m = Except.ok m2) :
    ∃ d : Int, m2.find? "duration" = some (Value.int d) ∧
      min (max d 3) 5 = d ∧
      (¬(modelType = "text_to_video" ∨ modelType = "image_to_video") → d = 5) := by
  unfold aliyunDuration at h
  by_cases hc : m.contains "duration" = false
  · rw [if_pos hc] at h
    injection h with h
    subst h
    exact ⟨5, StrMap.find?_insert_self _ _ _, by decide, fun _ => rfl⟩
  · rw [if_neg hc] at h
    by_cases hdyn : modelType = "text_to_video" ∨ modelType = "image_to_video"
    · rw [if_pos hdyn] at h
      cases hp : pyToInt (m.getV "duration") with
      | error e =>
          rw [hp] at h
          exact Except.noConfusion h
      | ok n =>
          rw [hp] at h
          injection h with h
          subst h
          exact ⟨min (max n 3) 5, StrMap.find?_insert_self _ _ _,
            clampDuration_idem n, fun hnd => absurd hdyn hnd⟩
    · rw [if_neg hdyn] at h
      injection h with h
      subst h
      exact ⟨5, StrMap.find?_insert_self _ _ _, by decide, fun _ => rfl⟩

theorem aliyunResolution_contains_resolution (model modelType : String) (m : StrMap) :
    (aliyunResolution model modelType m).contains "resolution" = true := by
  unfold aliyunResolution
  by_cases hres : m.contains "resolution" = false
  · rw [if_pos hres]
    by_cases hsz : m.contains "size" = true
    · rw [if_pos hsz, StrMap.contains_erase_of_ne _ _ _ (by decide),
          StrMap.contains_insert_self]
    · rw [if_neg hsz]
      split_ifs <;> rw [StrMap.contains_insert_self]
  · rw [if_neg hres]
    exact bool_true_of_not_false hres

theorem aliyunDefaults_contains (m : StrMap) :
    (aliyunDefaults m).contains "prompt_extend" = true ∧
    (aliyunDefaults m).contains "seed" = true := by
  unfold aliyunDefaults
  simp only []
  by_cases hpe : m.contains "prompt_extend" = false
  · rw [if_pos hpe]
    by_cases hs : (m.insert "prompt_extend" (Value.bool true)).contains "seed" = false
    · rw [if_pos hs]
      refine ⟨?_, StrMap.contains_insert_self _ _ _⟩
      rw [StrMap.contains_insert_of_ne _ _ _ _ (by decide), StrMap.contains_insert_self]
    · rw [if_neg hs]
      exact ⟨StrMap.contains_insert_self _ _ _, bool_true_of_not_false hs⟩
  · rw [if_neg hpe]
    by_cases hs : m.contains "seed" = false
    · rw [if_pos hs]
      refine ⟨?_, StrMap.contains_insert_self _ _ _⟩
      rw [StrMap.contains_insert_of_ne _ _ _ _ (by decide)]
      exact bool_true_of_not_false hpe
    · rw [if_neg hs]
      exact ⟨bool_true_of_not_false hpe, bool_true_of_not_false hs⟩

theorem aliyunValidate_normalizes (model : String) (p v : StrMap)
    (h : aliyunValidate model p = Except.ok v) : aliyunNormalized model v := by
  obtain ⟨m2, m3, hc, hr, hdur, hv⟩ := aliyunValidate_ok_inv model p v h
  have hsup := aliyunCheckModel_ok model hc
  have hv_find : ∀ k, k ≠ "resolution" → k ≠ "size" → k ≠ "prompt_extend" → k ≠ "seed" →
      v.find? k = m3.find? k := by
    intro k h1 h2 h3 h4
    rw [hv, aliyunDefaults_find?_of_ne _ _ h3 h4,
        aliyunResolution_find?_of_ne _ _ _ _ h1 h2]
  have hm3_find : ∀ k, k ≠ "duration" → m3.find? k = m2.find? k :=
    fun k hk => aliyunDuration_find?_of_ne _ _ _ _ hdur hk
  refine ⟨hsup, ?_, ?_, ?_, ?_, ?_, ?_, ?_, ?_⟩
  · rw [hv_find _ (by decide) (by decide) (by decide) (by decide),
        hm3_find _ (by decide),
        aliyunRequired_find?_of_ne _ _ _ _ hr (by decide) (by decide),
        StrMap.find?_insert_self]
  · intro hmt
    have hp := aliyunRequired_ok_prompt _ _ _ hr hmt
    have hfind : v.find? "prompt" =
        (p.insert "model_type" (Value.str (determineModelType model))).find? "prompt" := by
      rw [hv_find _ (by decide) (by decide) (by decide) (by decide),
          hm3_find _ (by decide),
          aliyunRequired_find?_of_ne _ _ _ _ hr (by decide) (by decide)]
    rw [StrMap.contains_congr _ _ _ hfind]
    exact hp
  · intro hmt
    rw [hmt] at hr
    have himg := aliyunRequired_i2v_img _ _ hr
    have hfind : v.find? "img_url" = m2.find? "img_url" := by
      rw [hv_find _ (by decide) (by decide) (by decide) (by decide),
          hm3_find _ (by decide)]
    rw [StrMap.contains_congr _ _ _ hfind]
    exact himg
  · intro hmt
    rw [hmt] at hr
    obtain ⟨heq, hf, hl⟩ := aliyunRequired_kf2v_frames _ _ hr
    constructor
    · have hfind : v.find? "first_frame_url" =
          (p.insert "model_type" (Value.str "keyframe_to_video")).find? "first_frame_url" := by
        rw [hv_find _ (by decide) (by decide) (by decide) (by decide),
            hm3_find _ (by decide), heq]
      rw [StrMap.contains_congr _ _ _ hfind]
      exact hf
    · have hfind : v.find? "last_frame_url" =
          (p.insert "model_type" (Value.str "keyframe_to_video")).find? "last_frame_url" := by
        rw [hv_find _ (by decide) (by decide) (by decide) (by decide),
            hm3_find _ (by decide), heq]
      rw [StrMap.contains_congr _ _ _ hfind]
      exact hl
  · obtain ⟨d, hd, hfix, h5⟩ := aliyunDuration_ok_duration _ _ _ hdur
    refine ⟨d, ?_, hfix, h5⟩
    rw [hv_find _ (by decide) (by decide) (by decide) (by decide)]
    exact hd
  · rw [hv, StrMap.contains_congr _ _ _
        (aliyunDefaults_find?_of_ne _ _ (by decide) (by decide))]
    exact aliyunResolution_contains_resolution _ _ _
  · rw [hv]
    exact (aliyunDefaults_contains _).1
  · rw [hv]
    exact (aliyunDefaults_contains _).2

theorem aliyunRequired_self (modelType : String) (v : StrMap)
    (hprompt : modelType ≠ "keyframe_to_video" → v.contains "prompt" = true)
    (himg : modelType = "image_to_video" → v.contains "img_url" = true)
    (hkf : modelType = "keyframe_to_video" →
      v.contains "first_frame_url" = true ∧ v.contains "last_frame_url" = true) :
    aliyunRequired modelType v = Except.ok v := by
  unfold aliyunRequired
  by_cases hmt : modelType = "keyframe_to_video"
  · rw [if_neg (by simp [hmt]), if_neg (by rw [hmt]; decide), if_pos hmt]
    obtain ⟨hf, hl⟩ := hkf hmt
    rw [if_neg (by simp [hf]), if_neg (by simp [hl])]
  · have hp := hprompt hmt
    rw [if_neg (by simp [hp])]
    by_cases hi : modelType = "image_to_video"
    · rw [if_pos hi]
      have himgT := himg hi
      rw [if_neg (by simp [himgT]), if_neg (by simp [himgT])]
    · rw [if_neg hi, if_neg hmt]

theorem aliyunDuration_self (modelType : String) (v : StrMap) (d : Int)
    (hd : v.find? "duration" = some (Value.int d))
    (hfix : min (max d 3) 5 = d)
    (h5 : ¬(modelType = "text_to_video" ∨ modelType = "image_to_video") → d = 5) :
    aliyunDuration modelType v = Except.ok v := by
  unfold aliyunDuration
  have hcont : v.contains "duration" = true := by
    rw [StrMap.contains_eq_isSome, hd]
    rfl
  rw [if_neg (by simp [hcont])]
  by_cases hdyn : modelType = "text_to_video" ∨ modelType = "image_to_video"
  · rw [if_pos hdyn]
    have hget : v.getV "duration" = Value.int d := by
      rw [StrMap.getV, hd]
      rfl
    rw [hget]
    simp only [pyToInt]
    rw [hfix, StrMap.insert_of_find? _ _ _ hd]
  · rw [if_neg hdyn]
    have h5v : v.find? "duration" = some (Value.int 5) := by
      rw [hd, h5 hdyn]
    rw [StrMap.insert_of_find? _ _ _ h5v]

theorem aliyunValidate_of_normalized (model : String) (v : StrMap)
    (hn : aliyunNormalized model v) : aliyunValidate model v = Except.ok v := by
  obtain ⟨hsup, hmt_find, hprompt, himg, hkf, ⟨d, hd, hfix, h5⟩, hres, hpe, hseed⟩ := hn
  have hc : aliyunCheckModel model = Except.ok () := by
    unfold aliyunCheckModel
    rw [hsup]
    rfl
  have hins : v.insert "model_type" (Value.str (determineModelType model)) = v :=
    StrMap.insert_of_find? _ _ _ hmt_find
  have hreq : aliyunRequired (determineModelType model) v = Except.ok v :=
    aliyunRequired_self _ _ hprompt himg hkf
  have hdur : aliyunDuration (determineModelType model) v = Except.ok v :=
    aliyunDuration_self _ _ d hd hfix h5
  have hresol : aliyunResolution model (determineModelType model) v = v := by
    unfold aliyunResolution
    rw [if_neg (by simp [hres])]
  have hdef : aliyunDefaults v = v := by
    unfold aliyunDefaults
    simp only []
    rw [if_neg (show ¬(v.contains "prompt_extend" = false) by simp [hpe]),
        if_neg (show ¬(v.contains "seed" = false) by simp [hseed])]
  unfold aliyunValidate
  simp only [hc, hins, hreq, hdur, hresol, hdef]

/-! ## Idempotence of validate_parameters: C5 (zhipuai side) -/

theorem zhipuImageBranch_ok_facts (p v : StrMap) (h : zhipuImageBranch p = Except.ok v) :
    v.contains "image_url" = true ∧
    (∀ ys, v.getV "image_url" = Value.list ys → ys.length ≠ 0) := by
  unfold zhipuImageBranch at h
  by_cases hmiss : p.contains "image_url" = false ∧ p.contains "source_image" = false
  · rw [if_pos hmiss] at h
    exact Except.noConfusion h
  · rw [if_neg hmiss] at h
    simp only [] at h
    by_cases hrew : p.contains "source_image" = true ∧ p.contains "image_url" = false
    · rw [if_pos hrew] at h
      have hwimg : ((p.insert "image_url"
          (p.getV "source_image")).erase "source_image").contains "image_url" = true := by
        rw [StrMap.contains_erase_of_ne _ _ _ (by decide), StrMap.contains_insert_self]
      cases hg : ((p.insert "image_url"
          (p.getV "source_image")).erase "source_image").getV "image_url" with
      | list xs =>
          rw [hg] at h
          simp only [] at h
          by_cases hlen : xs.length = 0
          · rw [if_pos hlen] at h
            exact Except.noConfusion h
          · rw [if_neg hlen] at h
            injection h with h
            subst h
            refine ⟨hwimg, fun ys hys => ?_⟩
            rw [hg] at hys
            injection hys with hys
            subst hys
            exact hlen
      | str s =>
          rw [hg] at h
          injection h with h
          subst h
          exact ⟨hwimg, fun ys hys => by rw [hg] at hys; exact Value.noConfusion hys⟩
      | int n =>
          rw [hg] at h
          injection h with h
          subst h
          exact ⟨hwimg, fun ys hys => by rw [hg] at hys; exact Value.noConfusion hys⟩
      | bool b =>
          rw [hg] at h
          injection h with h
          subst h
          exact ⟨hwimg, fun ys hys => by rw [hg] at hys; exact Value.noConfusion hys⟩
      | null =>
          rw [hg] at h
          injection h with h
          subst h
          exact ⟨hwimg, fun ys hys => by rw [hg] at hys; exact Value.noConfusion hys⟩
    · rw [if_neg hrew] at h
      have hpimg : p.contains "image_url" = true := by
        cases hval : p.contains "image_url" with
        | true => rfl
        | false =>
            cases hsval : p.contains "source_image" with
            | false => exact absurd ⟨hval, hsval⟩ hmiss
            | true => exact absurd ⟨hsval, hval⟩ hrew
      cases hg : p.getV "image_url" with
      | list xs =>
          rw [hg] at h
          simp only [] at h
          by_cases hlen : xs.length = 0
          · rw [if_pos hlen] at h
            exact Except.noConfusion h
          · rw [if_neg hlen] at h
            injection h with h
            subst h
            refine ⟨hpimg, fun ys hys => ?_⟩
            rw [hg] at hys
            injection hys with hys
            subst hys
            exact hlen
      | str s =>
          rw [hg] at h
          injection h with h
          subst h
          exact ⟨hpimg, fun ys hys => by rw [hg] at hys; exact Value.noConfusion hys⟩
      | int n =>
          rw [hg] at h
          injection h with h
          subst h
          exact ⟨hpimg, fun ys hys => by rw [hg] at hys; exact Value.noConfusion hys⟩
      | bool b =>
          rw [hg] at h
          injection h with h
          subst h
          exact ⟨hpimg, fun ys hys => by rw [hg] at hys; exact Value.noConfusion hys⟩
      | null =>
          rw [hg] at h
          injection h with h
          subst h
          exact ⟨hpimg, fun ys hys => by rw [hg] at hys; exact Value.noConfusion hys⟩

theorem zhipuImageBranch_self (v : StrMap) (hv : v.contains "image_url" = true)
    (hlist : ∀ ys, v.getV "image_url" = Value.list ys → ys.length ≠ 0) :
    zhipuImageBranch v = Except.ok v := by
  unfold zhipuImageBranch
  rw [if_neg (fun hand => by rw [hv] at hand; exact absurd hand.1 (by decide))]
  simp only []
  rw [if_neg (fun hand => by rw [hv] at hand; exact absurd hand.2 (by decide))]
  cases hg : v.getV "image_url" with
  | list xs =>
      simp only []
      rw [if_neg (hlist xs hg)]
  | str s => rfl
  | int n => rfl
  | bool b => rfl
  | null => rfl

theorem zhipuStartEndBranch_idem (p v : StrMap)
    (h : zhipuStartEndBranch p = Except.ok v) : zhipuStartEndBranch v = Except.ok v := by
  unfold zhipuStartEndBranch at h ⊢
  cases hg : p.find? "image_url" with
  | none =>
      rw [hg] at h
      exact Except.noConfusion h
  | some val =>
      rw [hg] at h
      cases val with
      | list xs =>
          simp only [] at h
          by_cases hlen : (xs.length != 2) = true
          · rw [if_pos hlen] at h
            exact Except.noConfusion h
          · rw [if_neg hlen] at h
            injection h with h
            subst h
            rw [hg]
            simp only []
            rw [if_neg hlen]
      | str s => exact Except.noConfusion h
      | int n => exact Except.noConfusion h
      | bool b => exact Except.noConfusion h
      | null => exact Except.noConfusion h

theorem zhipuReferenceBranch_idem (p v : StrMap)
    (h : zhipuReferenceBranch p = Except.ok v) : zhipuReferenceBranch v = Except.ok v := by
  unfold zhipuReferenceBranch at h ⊢
  cases hg : p.find? "image_url" with
  | none =>
      rw [hg] at h
      exact Except.noConfusion h
  | some val =>
      rw [hg] at h
      cases val with
      | list xs =>
          simp only [] at h
          by_cases hlen : xs.length = 0
          · rw [if_pos hlen] at h
            exact Except.noConfusion h
          · rw [if_neg hlen] at h
            by_cases hbig : xs.length > 3
            · rw [if_pos hbig] at h
              exact Except.noConfusion h
            · rw [if_neg hbig] at h
              injection h with h
              subst h
              rw [hg]
              simp only []
              rw [if_neg hlen, if_neg hbig]
      | str s => exact Except.noConfusion h
      | int n => exact Except.noConfusion h
      | bool b => exact Except.noConfusion h
      | null => exact Except.noConfusion h

theorem zhipuRequired_idem (model : String) (p v : StrMap)
    (h : zhipuRequired model p = Except.ok v) : zhipuRequired model v = Except.ok v := by
  unfold zhipuRequired at h ⊢
  simp only [] at h ⊢
  by_cases hcog : pyStartsWith model "cogvideox" = true
  · rw [if_pos hcog] at h ⊢
    by_cases hp : p.contains "prompt" = false
    · rw [if_pos hp] at h
      exact Except.noConfusion h
    · rw [if_neg hp] at h
      injection h with h
      subst h
      rw [if_neg hp]
  · rw [if_neg hcog] at h ⊢
    by_cases htext : model = "viduq1-text"
    · rw [if_pos htext] at h ⊢
      by_cases hp : p.contains "prompt" = false
      · rw [if_pos hp] at h
        exact Except.noConfusion h
      · rw [if_neg hp] at h
        injection h with h
        subst h
        rw [if_neg hp]
    · rw [if_neg htext] at h ⊢
      by_cases himg : model = "viduq1-image" ∨ model = "vidu2-image"
      · rw [if_pos himg] at h ⊢
        obtain ⟨h1, h2⟩ := zhipuImageBranch_ok_facts p v h
        exact zhipuImageBranch_self v h1 h2
      · rw [if_neg himg] at h ⊢
        by_cases hse : model = "viduq1-start-end" ∨ model = "vidu2-start-end"
        · rw [if_pos hse] at h ⊢
          exact zhipuStartEndBranch_idem p v h
        · rw [if_neg hse] at h ⊢
          by_cases href : model = "vidu2-reference"
          · rw [if_pos href] at h ⊢
            exact zhipuReferenceBranch_idem p v h
          · rw [if_neg href] at h ⊢

theorem zhipuValidate_idem (model : String) (p v : StrMap)
    (h : zhipuValidate model p = Except.ok v) : zhipuValidate model v = Except.ok v := by
  unfold zhipuValidate at h ⊢
  cases hc : zhipuSupportedModels.contains model with
  | false =>
      rw [hc] at h
      simp at h
  | true =>
      rw [hc] at h
      rw [if_neg (show ¬((!true) = true) by decide)] at h
      rw [if_neg (show ¬((!true) = true) by decide)]
      exact zhipuRequired_idem model p v h

/-- C5: `validate_parameters` is idempotent for both adapters — applying it
to its own successful output succeeds and returns exactly the same
normalized mapping. -/
theorem validate_parameters_idempotent :
    (∀ model p v, aliyunValidate model p = Except.ok v →
      aliyunValidate model v = Except.ok v) ∧
    (∀ model p v, zhipuValidate model p = Except.ok v →
      zhipuValidate model v = Except.ok v) :=
  ⟨fun model p v h =>
      aliyunValidate_of_normalized model v (aliyunValidate_normalizes model p v h),
   fun model p v h => zhipuValidate_idem model p v h⟩

/-- Witness for C5: a concrete aliyun normalization and a concrete zhipuai
normalization, each re-validated to itself. -/
theorem validate_parameters_idempotent_witness :
    aliyunValidate "wanx2.1-t2v-turbo"
      [("prompt", Value.str "a cat"), ("model_type", Value.str "text_to_video"),
       ("duration", Value.int 5), ("resolution", Value.str "720P"),
       ("prompt_extend", Value.bool true), ("seed", Value.int (-1))] =
      Except.ok
        [("prompt", Value.str "a cat"), ("model_type", Value.str "text_to_video"),
         ("duration", Value.int 5), ("resolution", Value.str "720P"),
         ("prompt_extend", Value.bool true), ("seed", Value.int (-1))] ∧
    zhipuValidate "vidu2-image" [("image_url", Value.str "http://x")] =
      Except.ok [("image_url", Value.str "http://x")] :=
  ⟨validate_parameters_idempotent.1 "wanx2.1-t2v-turbo"
      [("prompt", Value.str "a cat")]
      [("prompt", Value.str "a cat"), ("model_type", Value.str "text_to_video"),
       ("duration", Value.int 5), ("resolution", Value.str "720P"),
       ("prompt_extend", Value.bool true), ("seed", Value.int (-1))]
      (by decide),
   validate_parameters_idempotent.2 "vidu2-image"
      [("source_image", Value.str "http://x")]
      [("image_url", Value.str "http://x")]
      (by decide)⟩
